import Mathlib

/-!
# Local forwarding (`p2p/local.go`) and the mount command (`core/commands2/mount_unix.go`)

A shallow embedding of the local-forward listener of the p2p tunnel
(`ForwardLocal`, `dial`, `acceptConns`, `Close`, `Protocol`, `TargetAddress`)
and of the mount-point selection of the mount command, followed by the
properties established about them.

The external world (socket layer, overlay host) is scripted: every call that
leaves the package takes its outcome from an argument, and every such call is
recorded in a trace, so that the order of effects can be stated.
-/

namespace P2PForward

/-! ## Data model -/

/-- Go `peer.ID`: an opaque string. -/
abbrev PeerID := String

/-- Go `ma.Multiaddr`, by its textual form. -/
abbrev Multiaddr := String

/-- Go `time.Duration`, in nanoseconds. -/
abbrev Duration := Nat

/-- Go `time.Second`. -/
def Second : Duration := 1000000000

/-- Errors: the registry's `DuplicateID` and errors coming from outside the package. -/
inductive Error where
  | DuplicateID
  | ext (msg : String)
  deriving DecidableEq, Repr

/-- Go `context.Context`, as far as `local.go` builds one. -/
inductive Context where
  | base (id : Nat)
  | WithTimeout (parent : Context) (d : Duration)
  deriving DecidableEq, Repr

/-- Go `pstore.PeerInfo`. -/
structure PeerInfo where
  ID : PeerID
  Addrs : List Multiaddr := []
  deriving DecidableEq, Repr

/-- Go `manet.Listener`: a bound local socket listener. -/
structure MaListener where
  fd : Nat
  addr : Multiaddr
  deriving DecidableEq, Repr

/-- Go `manet.Listener.Multiaddr()`. -/
def MaListener.Multiaddr (m : MaListener) : Multiaddr := m.addr

/-- Go `manet.Conn`: an accepted local connection. -/
structure Conn where
  fd : Nat
  deriving DecidableEq, Repr

/-- Go `net.Conn` of the overlay, as seen through `RemotePeer()` and `RemoteMultiaddr()`. -/
structure OverlayConn where
  remotePeer : PeerID
  remoteMultiaddr : Multiaddr
  deriving DecidableEq, Repr

/-- Go `OverlayConn.RemotePeer()`. -/
def OverlayConn.RemotePeer (c : OverlayConn) : PeerID := c.remotePeer

/-- Go `OverlayConn.RemoteMultiaddr()`. -/
def OverlayConn.RemoteMultiaddr (c : OverlayConn) : Multiaddr := c.remoteMultiaddr

/-- Go `net.Stream`: an opened overlay stream. -/
structure NetStream where
  id : Nat
  conn : OverlayConn
  deriving DecidableEq, Repr

/-- Go `net.Stream.Conn()`. -/
def NetStream.Conn (s : NetStream) : OverlayConn := s.conn

/-- Address of a manager object (`*P2P`). -/
abbrev P2PRef := Nat

/-- Address of a stream registry: `&m.Streams` for the manager at address `m`. -/
inductive RegistryRef where
  | Streams (m : P2PRef)
  deriving DecidableEq, Repr

/-- Go `p2p.Stream`, with the fields set by the literal in `acceptConns`. -/
structure Stream where
  Protocol : String
  LocalPeer : PeerID
  LocalAddr : Multiaddr
  RemotePeer : PeerID
  RemoteAddr : Multiaddr
  Local : Conn
  Remote : NetStream
  Registry : RegistryRef
  deriving DecidableEq, Repr

/-- Go `localListener` (local.go:16-26). -/
structure localListener where
  ctx : Context
  p2p : P2PRef
  id : PeerID
  proto : String
  peer : PeerID
  listener : MaListener
  deriving DecidableEq, Repr

/-- Go `localListener.Protocol` (local.go:104-106). -/
def localListener.Protocol (l : localListener) : String := l.proto

/-- Go `localListener.ListenAddress` (local.go:108-110); `String()` of a multiaddr is its text. -/
def localListener.ListenAddress (l : localListener) : String := l.listener.Multiaddr

/-- Go `localListener.TargetAddress` (local.go:112-114); `Pretty` is `peer.ID.Pretty`. -/
def localListener.TargetAddress (Pretty : PeerID → String) (l : localListener) : String :=
  "/ipfs/" ++ Pretty l.peer

/-! ## Registries -/

/-- Modelled from the spec: the `Registry` type of §3/§4.1, whose code is not among the
sources: a mapping from identifier to item with unique keys. -/
structure Registry (κ α : Type) where
  entries : List (κ × α)
  deriving DecidableEq, Repr

/-- Modelled from the spec: `register(id, item) -> error` of §4.1, not among the sources:
fails with `DuplicateID` if `id` is already present, otherwise adds the entry. -/
def Registry.register {κ α : Type} [DecidableEq κ] (r : Registry κ α) (id : κ) (item : α) :
    Except Error (Registry κ α) :=
  if id ∈ r.entries.map Prod.fst then .error Error.DuplicateID
  else .ok ⟨r.entries ++ [(id, item)]⟩

/-- Modelled from the spec: `deregister(id)` of §4.1, not among the sources: removes the
entry for `id` and is a no-op if absent. -/
def Registry.deregister {κ α : Type} [DecidableEq κ] (r : Registry κ α) (id : κ) : Registry κ α :=
  ⟨r.entries.filter (fun e => decide (e.1 ≠ id))⟩

/-- Modelled from the spec: `get(id) -> item, found` of §4.1, not among the sources. -/
def Registry.get {κ α : Type} [DecidableEq κ] (r : Registry κ α) (id : κ) : Option α :=
  (r.entries.find? (fun e => decide (e.1 = id))).map Prod.snd

/-- Modelled from the spec: `list()` of §4.1, not among the sources: a snapshot of the items. -/
def Registry.list {κ α : Type} (r : Registry κ α) : List α := r.entries.map Prod.snd

/-- The Listener Registry: listeners keyed by their protocol. -/
abbrev ListenerRegistry := Registry String localListener

/-- The Stream Registry: streams keyed by a number. -/
abbrev StreamRegistry := Registry Nat Stream

/-- Modelled from the spec: `Listeners.Register(listener)`, not among the sources: the
listener is registered under its `Protocol()` (§4.3 "registers itself in the Listener
Registry under `protocol`"). The registry is updated in place; the error is the result. -/
def ListenerRegistry.Register (r : ListenerRegistry) (l : localListener) :
    ListenerRegistry × Option Error :=
  match r.register l.Protocol l with
  | .ok r' => (r', none)
  | .error e => (r, some e)

/-- Modelled from the spec: `Listeners.Deregister(proto)`, not among the sources. -/
def ListenerRegistry.Deregister (r : ListenerRegistry) (proto : String) : ListenerRegistry :=
  r.deregister proto

/-- Modelled from the spec: the identifier given to a newly registered Stream. The spec
does not say how it is chosen and `Streams.Register(&stream)` is passed none, so the
registry allocates one that is larger than every identifier in use. -/
def StreamRegistry.freshId (r : StreamRegistry) : Nat :=
  (r.entries.map Prod.fst).foldr max 0 + 1

/-- Modelled from the spec: `Streams.Register(&stream)`, not among the sources: the stream
is registered under a freshly allocated identifier. -/
def StreamRegistry.Register (r : StreamRegistry) (s : Stream) : StreamRegistry × Option Error :=
  match r.register r.freshId s with
  | .ok r' => (r', none)
  | .error e => (r, some e)

/-! ## The manager and the world around it -/

/-- Go `P2P`: the fields `local.go` uses (`peerHost` is scripted, see `Host`). -/
structure P2P where
  identity : PeerID
  Listeners : ListenerRegistry
  Streams : StreamRegistry
  deriving DecidableEq, Repr

/-- Calls that leave `local.go`, in the order they happen. -/
inductive Event where
  | Listen (addr : Multiaddr)
  | Accept (m : MaListener)
  | Connect (ctx : Context) (pi : PeerInfo)
  | NewStream (ctx : Context) (peer : PeerID) (proto : String)
  | ConnClose (c : Conn)
  | ListenerClose (m : MaListener)
  | ListenersRegister (l : localListener)
  | ListenersDeregister (proto : String)
  | StreamsRegister (s : Stream)
  | startStreaming (s : Stream)
  | goAcceptConns (l : localListener)
  deriving DecidableEq, Repr

/-- The manager object at address `ref`, the socket layer's state and the trace of calls. -/
structure World where
  ref : P2PRef
  p2p : P2P
  listening : List MaListener
  closedConns : List Conn
  trace : List Event
  deriving DecidableEq, Repr

/-- Append calls to the trace. -/
def World.emit (w : World) (evs : List Event) : World :=
  { w with trace := w.trace ++ evs }

/-- The overlay host (`p2p.peerHost`) at one moment: what `Connect` and `NewStream` answer. -/
structure Host where
  Connect : Context → PeerInfo → Option Error
  NewStream : Context → PeerID → String → Except Error NetStream

/-! ## `local.go` -/

/-- Go `P2P.ForwardLocal` (local.go:29-51). `listen` is `manet.Listen`. The result is the
Go pair `(Listener, error)` and the world afterwards. -/
def P2P.ForwardLocal (w : World) (listen : Multiaddr → Except Error MaListener)
    (ctx : Context) (peer : PeerID) (proto : String) (bindAddr : Multiaddr) :
    (Option localListener × Option Error) × World :=
  match listen bindAddr with
  | .error err => ((none, some err), w.emit [Event.Listen bindAddr])
  | .ok maListener =>
    let listener : localListener :=
      { ctx := ctx, p2p := w.ref, id := w.p2p.identity, proto := proto, peer := peer,
        listener := maListener }
    let w1 : World :=
      { w with listening := w.listening ++ [maListener],
               trace := w.trace ++ [Event.Listen bindAddr] }
    let w2 : World :=
      { w1 with p2p := { w1.p2p with Listeners := (w1.p2p.Listeners.Register listener).1 },
                trace := w1.trace ++ [Event.ListenersRegister listener] }
    let w3 : World := w2.emit [Event.goAcceptConns listener]
    ((some listener, none), w3)

/-- Go `localListener.dial` (local.go:53-63): the result and the calls made on the host. -/
def localListener.dial (l : localListener) (h : Host) : Except Error NetStream × List Event :=
  let ctx := Context.WithTimeout l.ctx (Second * 30)
  match h.Connect ctx { ID := l.peer } with
  | some err => (.error err, [Event.Connect ctx { ID := l.peer }])
  | none =>
    (h.NewStream l.ctx l.peer l.proto,
      [Event.Connect ctx { ID := l.peer }, Event.NewStream l.ctx l.peer l.proto])

/-- One iteration of the `for` loop of `acceptConns` (local.go:67-94). `accept` is what
`l.listener.Accept()` returns, `h` the host during this iteration. The flag is `true`
when the loop goes on to its next iteration and `false` when the function returns. -/
def localListener.acceptIter (l : localListener) (w : World)
    (accept : Except Error Conn) (h : Host) : Bool × World :=
  match accept with
  | .error _ => (false, w.emit [Event.Accept l.listener])
  | .ok loc =>
    match l.dial h with
    | (.error _, evs) =>
      (false, { w with closedConns := w.closedConns ++ [loc],
                       trace := w.trace ++ [Event.Accept l.listener] ++ evs ++
                         [Event.ConnClose loc] })
    | (.ok remote, evs) =>
      let stream : Stream :=
        { Protocol := l.proto,
          LocalPeer := l.id,
          LocalAddr := l.listener.Multiaddr,
          RemotePeer := remote.Conn.RemotePeer,
          RemoteAddr := remote.Conn.RemoteMultiaddr,
          Local := loc,
          Remote := remote,
          Registry := RegistryRef.Streams l.p2p }
      (true, { w with p2p := { w.p2p with Streams := (w.p2p.Streams.Register stream).1 },
                      trace := w.trace ++ [Event.Accept l.listener] ++ evs ++
                        [Event.StreamsRegister stream, Event.startStreaming stream] })

/-- Go `localListener.acceptConns` (local.go:65-96), run against a script of what each
`Accept` returns and what the host answers during that iteration. The flag is `true` when
the function has returned and `false` when the script ran out with the loop still alive
(blocked in `Accept`). -/
def localListener.acceptConns (l : localListener) (w : World) :
    List (Except Error Conn × Host) → Bool × World
  | [] => (false, w)
  | (accept, h) :: rest =>
    match l.acceptIter w accept h with
    | (true, w') => l.acceptConns w' rest
    | (false, w') => (true, w')

/-- Go `localListener.Close` (local.go:98-102): the returned error and the world afterwards. -/
def localListener.Close (l : localListener) (w : World) : Option Error × World :=
  let w1 : World :=
    { w with listening := w.listening.filter (fun m => decide (m ≠ l.listener)),
             trace := w.trace ++ [Event.ListenerClose l.listener] }
  let w2 : World :=
    { w1 with p2p := { w1.p2p with Listeners := w1.p2p.Listeners.Deregister l.proto },
              trace := w1.trace ++ [Event.ListenersDeregister l.proto] }
  (none, w2)

/-! ## Sequences of calls -/

/-- One call into `local.go`: a `ForwardLocal`, one iteration of some listener's accept
loop, or a `Close`. -/
inductive Op where
  | ForwardLocal (listen : Multiaddr → Except Error MaListener) (ctx : Context)
      (peer : PeerID) (proto : String) (bindAddr : Multiaddr)
  | acceptIter (l : localListener) (accept : Except Error Conn) (h : Host)
  | Close (l : localListener)

/-- The world after one call. -/
def Op.apply (w : World) : Op → World
  | .ForwardLocal listen ctx peer proto bindAddr =>
    (P2P.ForwardLocal w listen ctx peer proto bindAddr).2
  | .acceptIter l accept h => (l.acceptIter w accept h).2
  | .Close l => (l.Close w).2

/-- The world after a sequence of calls. -/
def run (w : World) (ops : List Op) : World := ops.foldl Op.apply w

/-- Whether a call is a `Close` of a listener for protocol `proto`. -/
def Op.closesProto (proto : String) : Op → Bool
  | .Close l => decide (l.Protocol = proto)
  | _ => false

/-- A fresh manager at address `ref` with identity `identity`: both registries empty,
no socket open, nothing called yet. -/
def World.init (ref : P2PRef) (identity : PeerID) : World :=
  { ref := ref,
    p2p := { identity := identity, Listeners := ⟨[]⟩, Streams := ⟨[]⟩ },
    listening := [], closedConns := [], trace := [] }

end P2PForward

/-! ## The mount command -/

namespace Mount

/-- Go `config.Mounts`. -/
structure Mounts where
  IPFS : String
  IPNS : String
  deriving DecidableEq, Repr

/-- A value of an option of a request (Go `interface{}`): a string or something else. -/
inductive OptVal where
  | str (s : String)
  | bool (b : Bool)
  | int (n : Int)
  deriving DecidableEq, Repr

/-- Go `cmds.Request`, as far as `Run` reads it: the options that were given. -/
structure Request where
  options : List (String × OptVal)
  deriving DecidableEq, Repr

/-- Go `req.Option(name)`: the value, `none` (nil) when the option was not given. -/
def Request.Option (req : Request) (name : String) : Option OptVal :=
  (req.options.find? (fun e => decide (e.1 = name))).map Prod.snd

/-- Why `Run` sets an error before mounting. -/
inductive RunError where
  | errNotOnline
  | fuse (msg : String)
  deriving DecidableEq, Repr

/-- The two mount calls `Run` makes: `mountIpfs(node, fsdir)` and
`mountIpns(node, nsdir, fsdir)`. -/
structure MountCalls where
  fsdir : String
  nsdir : String
  deriving DecidableEq, Repr

/-- Go `mountCmd.Run` (mount_unix.go:38-66) up to the two mount calls. `online` is
`ctx.Node.Network != nil`, `platformFuseChecks` what that check returns, `cfg` is
`ctx.Config.Mounts`. -/
def Run (online : Bool) (platformFuseChecks : Option String) (cfg : Mounts) (req : Request) :
    Except RunError MountCalls :=
  if !online then .error RunError.errNotOnline
  else
    match platformFuseChecks with
    | some err => .error (RunError.fuse err)
    | none =>
      let fsdir := cfg.IPFS
      let opt := req.Option "f"
      let fsdir :=
        match opt with
        | some (OptVal.str val) => if val ≠ "" then val else fsdir
        | _ => fsdir
      let nsdir := cfg.IPNS
      let opt := req.Option "f"
      let nsdir :=
        match opt with
        | some (OptVal.str val) => if val ≠ "" then val else nsdir
        | _ => nsdir
      .ok { fsdir := fsdir, nsdir := nsdir }

end Mount

namespace P2PForward

/-- Every entry of the Listener Registry is filed under its listener's `Protocol()`. -/
def ListenerRegistry.Keyed (r : ListenerRegistry) : Prop :=
  ∀ e ∈ r.entries, e.2.Protocol = e.1

/-- The identifiers in use in a registry. -/
def Registry.keys {κ α : Type} (r : Registry κ α) : List κ := r.entries.map Prod.fst

/-! ## Concrete inputs -/

namespace Sample

/-- The manager's own identity. -/
def self : PeerID := "QmSelf"

/-- The target peer. -/
def target : PeerID := "QmTarget"

/-- The forwarded protocol. -/
def echo : String := "/x/echo"

/-- A socket layer on which two addresses can be bound. -/
def listen : Multiaddr → Except Error MaListener := fun a =>
  if a = "/ip4/127.0.0.1/tcp/4001" then .ok ⟨3, a⟩
  else if a = "/ip4/127.0.0.1/tcp/4002" then .ok ⟨4, a⟩
  else .error (Error.ext "bind: address unavailable")

/-- The caller's context. -/
def ctx : Context := Context.base 0

/-- A fresh manager. -/
def w0 : World := World.init 1 self

/-- The listener the first `ForwardLocal` creates. -/
def l1 : localListener :=
  { ctx := ctx, p2p := 1, id := self, proto := echo, peer := target,
    listener := ⟨3, "/ip4/127.0.0.1/tcp/4001"⟩ }

/-- The listener a second `ForwardLocal` for the same protocol creates. -/
def l2 : localListener :=
  { ctx := ctx, p2p := 1, id := self, proto := echo, peer := target,
    listener := ⟨4, "/ip4/127.0.0.1/tcp/4002"⟩ }

/-- The world after the first `ForwardLocal`. -/
def w1 : World := (P2P.ForwardLocal w0 listen ctx target echo "/ip4/127.0.0.1/tcp/4001").2

/-- A host that cannot reach the peer. -/
def hostDown : Host :=
  { Connect := fun _ _ => some (Error.ext "no route to peer"),
    NewStream := fun _ _ _ => .error (Error.ext "not connected") }

/-- A host that reaches the peer, which does not speak the protocol. -/
def hostNoProto : Host :=
  { Connect := fun _ _ => none,
    NewStream := fun _ _ _ => .error (Error.ext "protocol not supported") }

/-- The overlay stream `hostUp` opens. -/
def remote : NetStream := ⟨7, ⟨target, "/ip4/10.0.0.2/tcp/4001"⟩⟩

/-- A host that reaches the peer and opens the stream. -/
def hostUp : Host :=
  { Connect := fun _ _ => none,
    NewStream := fun _ _ _ => .ok remote }

/-- Two accepted connections. -/
def c1 : Conn := ⟨10⟩

/-- The second accepted connection. -/
def c2 : Conn := ⟨11⟩

end Sample

/-! ## Registry lemmas -/

theorem le_foldr_max (ks : List Nat) (k : Nat) (hk : k ∈ ks) : k ≤ ks.foldr max 0 := by
  induction ks with
  | nil => cases hk
  | cons a t ih =>
    simp only [List.foldr_cons]
    rcases List.mem_cons.mp hk with h | h
    · subst h; exact le_max_left _ _
    · exact le_trans (ih h) (le_max_right _ _)

theorem freshId_not_mem (r : StreamRegistry) : r.freshId ∉ r.entries.map Prod.fst := by
  intro h
  have := le_foldr_max _ _ h
  unfold StreamRegistry.freshId at this
  omega

theorem StreamRegistry_Register_entries (r : StreamRegistry) (s : Stream) :
    (r.Register s).1.entries = r.entries ++ [(r.freshId, s)] := by
  unfold StreamRegistry.Register Registry.register
  rw [if_neg (freshId_not_mem r)]

theorem StreamRegistry_Register_list (r : StreamRegistry) (s : Stream) :
    (r.Register s).1.list = r.list ++ [s] := by
  unfold Registry.list
  rw [StreamRegistry_Register_entries]
  simp

/-! ## `dial` -/

theorem dial_of_connect_error (l : localListener) (h : Host) (e : Error)
    (hc : h.Connect (Context.WithTimeout l.ctx (Second * 30)) { ID := l.peer } = some e) :
    l.dial h =
      (.error e, [Event.Connect (Context.WithTimeout l.ctx (Second * 30)) { ID := l.peer }]) := by
  simp only [localListener.dial, hc]

theorem dial_of_connect_ok (l : localListener) (h : Host)
    (hc : h.Connect (Context.WithTimeout l.ctx (Second * 30)) { ID := l.peer } = none) :
    l.dial h =
      (h.NewStream l.ctx l.peer l.proto,
        [Event.Connect (Context.WithTimeout l.ctx (Second * 30)) { ID := l.peer },
         Event.NewStream l.ctx l.peer l.proto]) := by
  simp only [localListener.dial, hc]

theorem Second_mul_thirty : Second * 30 = 30000000000 := by decide

/-- C10: `dial` first connects to the target peer under the listener's context wrapped in
a 30-second timeout; when that connect fails it returns the connect error, no stream, and
never calls `NewStream`; when it succeeds it returns exactly what `NewStream` on the
listener's context, target peer and protocol returns. -/
theorem dial_connect_then_newStream (l : localListener) (h : Host) :
    (l.dial h).2.head? =
        some (Event.Connect (Context.WithTimeout l.ctx 30000000000) { ID := l.peer }) ∧
    (∀ err, h.Connect (Context.WithTimeout l.ctx 30000000000) { ID := l.peer } = some err →
        (l.dial h).1 = .error err ∧
        ∀ c p q, Event.NewStream c p q ∉ (l.dial h).2) ∧
    (h.Connect (Context.WithTimeout l.ctx 30000000000) { ID := l.peer } = none →
        (l.dial h).1 = h.NewStream l.ctx l.peer l.proto ∧
        (l.dial h).2 =
          [Event.Connect (Context.WithTimeout l.ctx 30000000000) { ID := l.peer },
           Event.NewStream l.ctx l.peer l.proto]) := by
  rw [← Second_mul_thirty]
  cases hc : h.Connect (Context.WithTimeout l.ctx (Second * 30)) { ID := l.peer } with
  | some e =>
    rw [dial_of_connect_error l h e hc]
    refine ⟨rfl, ?_, ?_⟩
    · intro err he
      cases he
      exact ⟨rfl, by intro c p q hm; simp at hm⟩
    · intro hn; cases hn
  | none =>
    rw [dial_of_connect_ok l h hc]
    refine ⟨rfl, ?_, ?_⟩
    · intro err he; cases he
    · intro _; exact ⟨rfl, rfl⟩

/-- Witness for C10: an unreachable peer gives the connect error, a reachable one the
opened stream. -/
theorem dial_connect_then_newStream_witness :
    (Sample.l1.dial Sample.hostDown).1 = .error (Error.ext "no route to peer") ∧
    (Sample.l1.dial Sample.hostUp).1 = .ok Sample.remote :=
  ⟨((dial_connect_then_newStream Sample.l1 Sample.hostDown).2.1 _ rfl).1,
   ((dial_connect_then_newStream Sample.l1 Sample.hostUp).2.2 rfl).1⟩

/-! ## One iteration of the accept loop -/

theorem acceptIter_accept_error (l : localListener) (w : World) (e : Error) (h : Host) :
    l.acceptIter w (.error e) h = (false, w.emit [Event.Accept l.listener]) := rfl

theorem acceptIter_dial_error (l : localListener) (w : World) (c : Conn) (h : Host)
    (err : Error) (hd : (l.dial h).1 = .error err) :
    l.acceptIter w (.ok c) h =
      (false, { w with closedConns := w.closedConns ++ [c],
                       trace := w.trace ++ [Event.Accept l.listener] ++ (l.dial h).2 ++
                         [Event.ConnClose c] }) := by
  unfold localListener.acceptIter
  rcases hr : l.dial h with ⟨r, evs⟩
  rw [hr] at hd
  cases r with
  | error e => rfl
  | ok s => cases hd

theorem acceptIter_dial_ok (l : localListener) (w : World) (c : Conn) (h : Host)
    (remote : NetStream) (hd : (l.dial h).1 = .ok remote) :
    l.acceptIter w (.ok c) h =
      (true,
        { w with
          p2p := { w.p2p with Streams := (w.p2p.Streams.Register
            { Protocol := l.proto, LocalPeer := l.id, LocalAddr := l.listener.Multiaddr,
              RemotePeer := remote.Conn.RemotePeer, RemoteAddr := remote.Conn.RemoteMultiaddr,
              Local := c, Remote := remote, Registry := RegistryRef.Streams l.p2p }).1 },
          trace := w.trace ++ [Event.Accept l.listener] ++ (l.dial h).2 ++
            [Event.StreamsRegister
              { Protocol := l.proto, LocalPeer := l.id, LocalAddr := l.listener.Multiaddr,
                RemotePeer := remote.Conn.RemotePeer, RemoteAddr := remote.Conn.RemoteMultiaddr,
                Local := c, Remote := remote, Registry := RegistryRef.Streams l.p2p },
             Event.startStreaming
              { Protocol := l.proto, LocalPeer := l.id, LocalAddr := l.listener.Multiaddr,
                RemotePeer := remote.Conn.RemotePeer, RemoteAddr := remote.Conn.RemoteMultiaddr,
                Local := c, Remote := remote, Registry := RegistryRef.Streams l.p2p }] }) := by
  unfold localListener.acceptIter
  rcases hr : l.dial h with ⟨r, evs⟩
  rw [hr] at hd
  cases r with
  | error e => cases hd
  | ok s => cases hd; rfl

theorem acceptConns_cons_stop (l : localListener) (w w' : World) (a : Except Error Conn)
    (h : Host) (rest : List (Except Error Conn × Host))
    (hi : l.acceptIter w a h = (false, w')) :
    l.acceptConns w ((a, h) :: rest) = (true, w') := by
  simp only [localListener.acceptConns, hi]

theorem acceptConns_cons_continue (l : localListener) (w w' : World) (a : Except Error Conn)
    (h : Host) (rest : List (Except Error Conn × Host))
    (hi : l.acceptIter w a h = (true, w')) :
    l.acceptConns w ((a, h) :: rest) = l.acceptConns w' rest := by
  simp only [localListener.acceptConns, hi]

/-! ## Dial failure -/

/-- C5: when the dial for an accepted local connection fails (connect error or
stream-open error), handling that connection closes it and registers no Stream: the
manager, and with it the Stream Registry, is the same afterwards as before, the only calls
made are the accept, the dial's and the close of that connection, and this also holds for
the world `acceptConns` ends in. -/
theorem acceptConns_dial_failure_closes_conn (l : localListener) (w : World) (c : Conn)
    (h : Host) (err : Error) (rest : List (Except Error Conn × Host))
    (hd : (l.dial h).1 = .error err) :
    (l.acceptIter w (.ok c) h).2.closedConns = w.closedConns ++ [c] ∧
    (l.acceptIter w (.ok c) h).2.p2p.Streams = w.p2p.Streams ∧
    (l.acceptIter w (.ok c) h).2.trace =
      w.trace ++ [Event.Accept l.listener] ++ (l.dial h).2 ++ [Event.ConnClose c] ∧
    (∀ s, Event.StreamsRegister s ∉ (l.dial h).2 ∧ Event.startStreaming s ∉ (l.dial h).2) ∧
    (l.acceptConns w ((.ok c, h) :: rest)).2.p2p.Streams = w.p2p.Streams ∧
    c ∈ (l.acceptConns w ((.ok c, h) :: rest)).2.closedConns := by
  have hi := acceptIter_dial_error l w c h err hd
  have hc := acceptConns_cons_stop l w _ (.ok c) h rest hi
  rw [hc, hi]
  refine ⟨rfl, rfl, rfl, ?_, rfl, by simp⟩
  intro s
  cases hcn : h.Connect (Context.WithTimeout l.ctx (Second * 30)) { ID := l.peer } with
  | some e => rw [dial_of_connect_error l h e hcn]; simp
  | none => rw [dial_of_connect_ok l h hcn]; simp

/-- Witness for C5: the peer is reachable but does not speak the protocol. -/
theorem acceptConns_dial_failure_closes_conn_witness :
    (Sample.l1.acceptIter Sample.w1 (.ok Sample.c1) Sample.hostNoProto).2.closedConns =
      Sample.w1.closedConns ++ [Sample.c1] ∧
    (Sample.l1.acceptIter Sample.w1 (.ok Sample.c1) Sample.hostNoProto).2.p2p.Streams =
      Sample.w1.p2p.Streams :=
  ⟨(acceptConns_dial_failure_closes_conn Sample.l1 Sample.w1 Sample.c1 Sample.hostNoProto
      (Error.ext "protocol not supported") [] rfl).1,
   (acceptConns_dial_failure_closes_conn Sample.l1 Sample.w1 Sample.c1 Sample.hostNoProto
      (Error.ext "protocol not supported") [] rfl).2.1⟩

/-- C1: evaluation of `acceptConns` where the first accepted connection's dial fails and a
second connection with a reachable peer is waiting: the function returns after the first
connection, the second connection is never accepted and no Stream is registered. -/
theorem acceptConns_returns_on_dial_failure :
    Sample.l1.acceptConns Sample.w1
        [(.ok Sample.c1, Sample.hostDown), (.ok Sample.c2, Sample.hostUp)] =
      (true,
        { Sample.w1 with
          closedConns := [Sample.c1],
          trace := Sample.w1.trace ++
            [Event.Accept Sample.l1.listener,
             Event.Connect (Context.WithTimeout Sample.ctx 30000000000) { ID := Sample.target },
             Event.ConnClose Sample.c1] }) ∧
    (Sample.l1.acceptConns Sample.w1
        [(.ok Sample.c1, Sample.hostDown), (.ok Sample.c2, Sample.hostUp)]).2.p2p.Streams.list
      = [] := by
  constructor <;> rfl

/-! ## `Close` -/

theorem deregister_get_none {κ α : Type} [DecidableEq κ] (r : Registry κ α) (k : κ) :
    (r.deregister k).get k = none := by
  unfold Registry.get Registry.deregister
  rw [Option.map_eq_none', List.find?_eq_none]
  intro e he
  have := (List.mem_filter.mp he).2
  simpa using this

/-- C7: `Close` closes the underlying socket listener, deregisters the listener's protocol
from the Listener Registry, returns nil, and leaves the Stream Registry, the manager's
identity and every connection unchanged: the only calls it makes are the close of the
socket listener and the deregistration. -/
theorem Close_deregisters_and_keeps_streams (l : localListener) (w : World) :
    (l.Close w).1 = none ∧
    l.listener ∉ (l.Close w).2.listening ∧
    (∀ m ∈ w.listening, m ≠ l.listener → m ∈ (l.Close w).2.listening) ∧
    (l.Close w).2.p2p.Listeners = w.p2p.Listeners.Deregister l.Protocol ∧
    (l.Close w).2.p2p.Listeners.get l.Protocol = none ∧
    (l.Close w).2.p2p.Streams = w.p2p.Streams ∧
    (l.Close w).2.closedConns = w.closedConns ∧
    (l.Close w).2.trace =
      w.trace ++ [Event.ListenerClose l.listener, Event.ListenersDeregister l.Protocol] := by
  refine ⟨rfl, ?_, ?_, rfl, ?_, rfl, rfl, ?_⟩
  · simp [localListener.Close]
  · intro m hm hne
    simp [localListener.Close, hm, hne]
  · exact deregister_get_none _ _
  · simp [localListener.Close, localListener.Protocol]

/-! ## `ForwardLocal` -/

theorem ForwardLocal_of_listen_error (w : World) (listen : Multiaddr → Except Error MaListener)
    (ctx : Context) (peer : PeerID) (proto : String) (bindAddr : Multiaddr) (e : Error)
    (hl : listen bindAddr = .error e) :
    P2P.ForwardLocal w listen ctx peer proto bindAddr =
      ((none, some e), w.emit [Event.Listen bindAddr]) := by
  simp only [P2P.ForwardLocal, hl]

theorem ForwardLocal_of_listen_ok (w : World) (listen : Multiaddr → Except Error MaListener)
    (ctx : Context) (peer : PeerID) (proto : String) (bindAddr : Multiaddr) (m : MaListener)
    (hl : listen bindAddr = .ok m) :
    P2P.ForwardLocal w listen ctx peer proto bindAddr =
      ((some { ctx := ctx, p2p := w.ref, id := w.p2p.identity, proto := proto, peer := peer,
               listener := m }, none),
        { w with
          p2p := { w.p2p with Listeners := (w.p2p.Listeners.Register
            { ctx := ctx, p2p := w.ref, id := w.p2p.identity, proto := proto, peer := peer,
              listener := m }).1 },
          listening := w.listening ++ [m],
          trace := w.trace ++ [Event.Listen bindAddr] ++
            [Event.ListenersRegister
              { ctx := ctx, p2p := w.ref, id := w.p2p.identity, proto := proto, peer := peer,
                listener := m }] ++
            [Event.goAcceptConns
              { ctx := ctx, p2p := w.ref, id := w.p2p.identity, proto := proto, peer := peer,
                listener := m }] }) := by
  simp only [P2P.ForwardLocal, hl, World.emit]

/-- C3: `ForwardLocal` returns an error exactly when binding the socket listener fails; in
that case the error is the bind error, the listener is nil, the manager (both registries),
the open sockets and the closed connections are unchanged and no accept loop is started
(the only call made is the failed `Listen`); when binding succeeds it returns a non-nil
listener and a nil error. -/
theorem ForwardLocal_error_iff_bind_fails (w : World)
    (listen : Multiaddr → Except Error MaListener)
    (ctx : Context) (peer : PeerID) (proto : String) (bindAddr : Multiaddr) :
    ((P2P.ForwardLocal w listen ctx peer proto bindAddr).1.2.isSome = true ↔
        ∃ e, listen bindAddr = .error e) ∧
    (∀ e, listen bindAddr = .error e →
        (P2P.ForwardLocal w listen ctx peer proto bindAddr).1 = (none, some e) ∧
        (P2P.ForwardLocal w listen ctx peer proto bindAddr).2.p2p = w.p2p ∧
        (P2P.ForwardLocal w listen ctx peer proto bindAddr).2.listening = w.listening ∧
        (P2P.ForwardLocal w listen ctx peer proto bindAddr).2.closedConns = w.closedConns ∧
        (P2P.ForwardLocal w listen ctx peer proto bindAddr).2.trace =
          w.trace ++ [Event.Listen bindAddr]) ∧
    (∀ m, listen bindAddr = .ok m →
        (P2P.ForwardLocal w listen ctx peer proto bindAddr).1 =
          (some { ctx := ctx, p2p := w.ref, id := w.p2p.identity, proto := proto,
                  peer := peer, listener := m }, none)) := by
  cases hl : listen bindAddr with
  | error e =>
    rw [ForwardLocal_of_listen_error w listen ctx peer proto bindAddr e hl]
    refine ⟨⟨fun _ => ⟨e, rfl⟩, fun _ => rfl⟩, ?_, ?_⟩
    · intro e' he
      cases he
      exact ⟨rfl, rfl, rfl, rfl, rfl⟩
    · intro m hm; cases hm
  | ok m =>
    rw [ForwardLocal_of_listen_ok w listen ctx peer proto bindAddr m hl]
    refine ⟨⟨fun hs => by simp at hs, fun ⟨e, he⟩ => by cases he⟩, ?_, ?_⟩
    · intro e he; cases he
    · intro m' hm; cases hm; rfl

/-! ## What the calls leave alone -/

theorem acceptIter_frame (l : localListener) (w : World) (a : Except Error Conn) (h : Host) :
    (l.acceptIter w a h).2.ref = w.ref ∧
    (l.acceptIter w a h).2.p2p.identity = w.p2p.identity ∧
    (l.acceptIter w a h).2.p2p.Listeners = w.p2p.Listeners ∧
    (l.acceptIter w a h).2.listening = w.listening := by
  cases a with
  | error e => exact ⟨rfl, rfl, rfl, rfl⟩
  | ok c =>
    cases hr : (l.dial h).1 with
    | error e => rw [acceptIter_dial_error l w c h e hr]; exact ⟨rfl, rfl, rfl, rfl⟩
    | ok s => rw [acceptIter_dial_ok l w c h s hr]; exact ⟨rfl, rfl, rfl, rfl⟩

theorem acceptConns_frame (l : localListener) (script : List (Except Error Conn × Host)) :
    ∀ w : World,
      (l.acceptConns w script).2.ref = w.ref ∧
      (l.acceptConns w script).2.p2p.identity = w.p2p.identity ∧
      (l.acceptConns w script).2.p2p.Listeners = w.p2p.Listeners ∧
      (l.acceptConns w script).2.listening = w.listening := by
  induction script with
  | nil => intro w; exact ⟨rfl, rfl, rfl, rfl⟩
  | cons x rest ih =>
    intro w
    obtain ⟨a, h⟩ := x
    have hf := acceptIter_frame l w a h
    rcases hi : l.acceptIter w a h with ⟨b, w'⟩
    rw [hi] at hf
    cases b with
    | true =>
      rw [acceptConns_cons_continue l w w' a h rest hi]
      have := ih w'
      exact ⟨this.1.trans hf.1, this.2.1.trans hf.2.1, this.2.2.1.trans hf.2.2.1,
        this.2.2.2.trans hf.2.2.2⟩
    | false =>
      rw [acceptConns_cons_stop l w w' a h rest hi]
      exact hf

theorem ForwardLocal_frame (w : World) (listen : Multiaddr → Except Error MaListener)
    (ctx : Context) (peer : PeerID) (proto : String) (bindAddr : Multiaddr) :
    (P2P.ForwardLocal w listen ctx peer proto bindAddr).2.ref = w.ref ∧
    (P2P.ForwardLocal w listen ctx peer proto bindAddr).2.p2p.identity = w.p2p.identity ∧
    (P2P.ForwardLocal w listen ctx peer proto bindAddr).2.p2p.Streams = w.p2p.Streams := by
  cases hl : listen bindAddr with
  | error e =>
    rw [ForwardLocal_of_listen_error w listen ctx peer proto bindAddr e hl]
    exact ⟨rfl, rfl, rfl⟩
  | ok m =>
    rw [ForwardLocal_of_listen_ok w listen ctx peer proto bindAddr m hl]
    exact ⟨rfl, rfl, rfl⟩

theorem apply_frame (w : World) (op : Op) :
    (op.apply w).ref = w.ref ∧ (op.apply w).p2p.identity = w.p2p.identity := by
  cases op with
  | ForwardLocal listen ctx peer proto bindAddr =>
    exact ⟨(ForwardLocal_frame w listen ctx peer proto bindAddr).1,
      (ForwardLocal_frame w listen ctx peer proto bindAddr).2.1⟩
  | acceptIter l a h => exact ⟨(acceptIter_frame l w a h).1, (acceptIter_frame l w a h).2.1⟩
  | Close l => exact ⟨rfl, rfl⟩

theorem run_frame (ops : List Op) :
    ∀ w : World, (run w ops).ref = w.ref ∧ (run w ops).p2p.identity = w.p2p.identity := by
  induction ops with
  | nil => intro w; exact ⟨rfl, rfl⟩
  | cons op rest ih =>
    intro w
    have h1 := apply_frame w op
    have h2 := ih (op.apply w)
    exact ⟨h2.1.trans h1.1, h2.2.trans h1.2⟩

/-! ## The Listener Registry across calls -/

theorem Register_of_mem (r : ListenerRegistry) (l : localListener)
    (hk : l.Protocol ∈ r.keys) : r.Register l = (r, some Error.DuplicateID) := by
  unfold ListenerRegistry.Register Registry.register
  unfold Registry.keys at hk
  rw [if_pos hk]

theorem Register_of_not_mem (r : ListenerRegistry) (l : localListener)
    (hk : l.Protocol ∉ r.keys) :
    r.Register l = (⟨r.entries ++ [(l.Protocol, l)]⟩, none) := by
  unfold ListenerRegistry.Register Registry.register
  unfold Registry.keys at hk
  rw [if_neg hk]

theorem Register_keyed (r : ListenerRegistry) (l : localListener) (hr : r.Keyed) :
    (r.Register l).1.Keyed := by
  by_cases hk : l.Protocol ∈ r.keys
  · rw [Register_of_mem r l hk]; exact hr
  · rw [Register_of_not_mem r l hk]
    intro e he
    rcases List.mem_append.mp he with h | h
    · exact hr e h
    · rw [List.mem_singleton.mp h]

theorem Register_keys (r : ListenerRegistry) (l : localListener) (k : String)
    (hk : k ∈ r.keys) : k ∈ (r.Register l).1.keys := by
  by_cases hm : l.Protocol ∈ r.keys
  · rw [Register_of_mem r l hm]; exact hk
  · rw [Register_of_not_mem r l hm]
    unfold Registry.keys at hk ⊢
    simp only [List.map_append, List.mem_append]
    exact Or.inl hk

theorem Register_self_key (r : ListenerRegistry) (l : localListener) :
    l.Protocol ∈ (r.Register l).1.keys := by
  by_cases hm : l.Protocol ∈ r.keys
  · rw [Register_of_mem r l hm]; exact hm
  · rw [Register_of_not_mem r l hm]
    unfold Registry.keys
    simp

theorem Deregister_keyed (r : ListenerRegistry) (k : String) (hr : r.Keyed) :
    (r.Deregister k).Keyed := by
  intro e he
  exact hr e (List.mem_filter.mp he).1

theorem Deregister_keys (r : ListenerRegistry) (k k' : String) (hne : k' ≠ k)
    (hk : k ∈ r.keys) : k ∈ (r.Deregister k').keys := by
  unfold Registry.keys at hk ⊢
  obtain ⟨e, he, hek⟩ := List.mem_map.mp hk
  refine List.mem_map.mpr ⟨e, ?_, hek⟩
  unfold ListenerRegistry.Deregister Registry.deregister
  refine List.mem_filter.mpr ⟨he, ?_⟩
  simp only [decide_eq_true_eq]
  rw [hek]
  exact fun h => hne h.symm

theorem apply_keyed (w : World) (op : Op) (hw : w.p2p.Listeners.Keyed) :
    (op.apply w).p2p.Listeners.Keyed := by
  cases op with
  | ForwardLocal listen ctx peer proto bindAddr =>
    show (P2P.ForwardLocal w listen ctx peer proto bindAddr).2.p2p.Listeners.Keyed
    cases hl : listen bindAddr with
    | error e =>
      rw [ForwardLocal_of_listen_error w listen ctx peer proto bindAddr e hl]; exact hw
    | ok m =>
      rw [ForwardLocal_of_listen_ok w listen ctx peer proto bindAddr m hl]
      exact Register_keyed _ _ hw
  | acceptIter l a h =>
    show (l.acceptIter w a h).2.p2p.Listeners.Keyed
    rw [(acceptIter_frame l w a h).2.2.1]; exact hw
  | Close l => exact Deregister_keyed _ _ hw

theorem run_keyed (ops : List Op) :
    ∀ w : World, w.p2p.Listeners.Keyed → (run w ops).p2p.Listeners.Keyed := by
  induction ops with
  | nil => intro w hw; exact hw
  | cons op rest ih => intro w hw; exact ih _ (apply_keyed w op hw)

theorem init_keyed (ref : P2PRef) (identity : PeerID) :
    (World.init ref identity).p2p.Listeners.Keyed := by
  intro e he; cases he

theorem apply_keys (w : World) (op : Op) (proto : String)
    (hop : op.closesProto proto = false) (hk : proto ∈ w.p2p.Listeners.keys) :
    proto ∈ (op.apply w).p2p.Listeners.keys := by
  cases op with
  | ForwardLocal listen ctx peer proto' bindAddr =>
    show proto ∈ (P2P.ForwardLocal w listen ctx peer proto' bindAddr).2.p2p.Listeners.keys
    cases hl : listen bindAddr with
    | error e =>
      rw [ForwardLocal_of_listen_error w listen ctx peer proto' bindAddr e hl]; exact hk
    | ok m =>
      rw [ForwardLocal_of_listen_ok w listen ctx peer proto' bindAddr m hl]
      exact Register_keys _ _ _ hk
  | acceptIter l a h =>
    show proto ∈ (l.acceptIter w a h).2.p2p.Listeners.keys
    rw [(acceptIter_frame l w a h).2.2.1]; exact hk
  | Close l =>
    have hne : l.proto ≠ proto := by
      simpa [Op.closesProto, localListener.Protocol] using hop
    exact Deregister_keys _ _ _ hne hk

theorem run_keys (proto : String) (ops : List Op) :
    ∀ w : World, (∀ op ∈ ops, op.closesProto proto = false) →
      proto ∈ w.p2p.Listeners.keys → proto ∈ (run w ops).p2p.Listeners.keys := by
  induction ops with
  | nil => intro w _ hk; exact hk
  | cons op rest ih =>
    intro w hops hk
    exact ih _ (fun o ho => hops o (List.mem_cons_of_mem _ ho))
      (apply_keys w op proto (hops op (List.mem_cons_self _ _)) hk)

theorem keyed_entry_of_key (r : ListenerRegistry) (proto : String) (hr : r.Keyed)
    (hk : proto ∈ r.keys) : ∃ l ∈ r.list, l.Protocol = proto := by
  unfold Registry.keys at hk
  obtain ⟨e, he, hek⟩ := List.mem_map.mp hk
  refine ⟨e.2, List.mem_map.mpr ⟨e, he, rfl⟩, ?_⟩
  rw [hr e he, hek]

theorem key_of_get (r : ListenerRegistry) (proto : String) (l : localListener)
    (hg : r.get proto = some l) : proto ∈ r.keys := by
  unfold Registry.get at hg
  obtain ⟨e, he, _⟩ := Option.map_eq_some'.mp hg
  have h1 := List.mem_of_find?_eq_some he
  have h2 := List.find?_some he
  unfold Registry.keys
  exact List.mem_map.mpr ⟨e, h1, by simpa using h2⟩

theorem Register_get (r : ListenerRegistry) (l x : localListener) (k : String)
    (hg : r.get k = some x) : (r.Register l).1.get k = some x := by
  by_cases hm : l.Protocol ∈ r.keys
  · rw [Register_of_mem r l hm]; exact hg
  · rw [Register_of_not_mem r l hm]
    unfold Registry.get at hg ⊢
    obtain ⟨e, he, hx⟩ := Option.map_eq_some'.mp hg
    rw [List.find?_append, he]
    show Option.map Prod.snd (some e) = some x
    rw [Option.map_some', hx]

theorem Deregister_get (r : ListenerRegistry) (k k' : String) (hne : k' ≠ k) :
    (r.Deregister k').get k = r.get k := by
  unfold ListenerRegistry.Deregister Registry.deregister Registry.get
  simp only [List.find?_filter]
  congr 2
  funext e
  by_cases he : e.1 = k
  · have hk : ¬ k = k' := fun h => hne h.symm
    simp [he, hk]
  · simp [he]

theorem apply_get (w : World) (op : Op) (proto : String) (x : localListener)
    (hop : op.closesProto proto = false) (hg : w.p2p.Listeners.get proto = some x) :
    (op.apply w).p2p.Listeners.get proto = some x := by
  cases op with
  | ForwardLocal listen ctx peer proto' bindAddr =>
    show (P2P.ForwardLocal w listen ctx peer proto' bindAddr).2.p2p.Listeners.get proto = some x
    cases hl : listen bindAddr with
    | error e =>
      rw [ForwardLocal_of_listen_error w listen ctx peer proto' bindAddr e hl]; exact hg
    | ok m =>
      rw [ForwardLocal_of_listen_ok w listen ctx peer proto' bindAddr m hl]
      exact Register_get _ _ _ _ hg
  | acceptIter l a h =>
    show (l.acceptIter w a h).2.p2p.Listeners.get proto = some x
    rw [(acceptIter_frame l w a h).2.2.1]; exact hg
  | Close l =>
    have hne : l.proto ≠ proto := by
      simpa [Op.closesProto, localListener.Protocol] using hop
    show (w.p2p.Listeners.Deregister l.proto).get proto = some x
    rw [Deregister_get _ _ _ hne]; exact hg

theorem run_get (proto : String) (x : localListener) (ops : List Op) :
    ∀ w : World, (∀ op ∈ ops, op.closesProto proto = false) →
      w.p2p.Listeners.get proto = some x → (run w ops).p2p.Listeners.get proto = some x := by
  induction ops with
  | nil => intro w _ hg; exact hg
  | cons op rest ih =>
    intro w hops hg
    exact ih _ (fun o ho => hops o (List.mem_cons_of_mem _ ho))
      (apply_get w op proto x (hops op (List.mem_cons_self _ _)) hg)

/-! ## Registering the same protocol twice -/

/-- C2, as stated, fails: with "/x/echo" already registered by a first `ForwardLocal`, a
second `ForwardLocal` for "/x/echo" on another bindable address returns a listener and a
nil error, not a `DuplicateID` error with a nil listener. -/
theorem ForwardLocal_duplicate_not_rejected :
    Sample.w1.p2p.Listeners.get Sample.echo = some Sample.l1 ∧
    (P2P.ForwardLocal Sample.w1 Sample.listen Sample.ctx Sample.target Sample.echo
        "/ip4/127.0.0.1/tcp/4002").1 = (some Sample.l2, none) ∧
    ¬ ((P2P.ForwardLocal Sample.w1 Sample.listen Sample.ctx Sample.target Sample.echo
          "/ip4/127.0.0.1/tcp/4002").1.2 = some Error.DuplicateID ∧
       (P2P.ForwardLocal Sample.w1 Sample.listen Sample.ctx Sample.target Sample.echo
          "/ip4/127.0.0.1/tcp/4002").1.1 = none) := by
  refine ⟨rfl, rfl, ?_⟩
  intro h
  have h2 : (P2P.ForwardLocal Sample.w1 Sample.listen Sample.ctx Sample.target Sample.echo
      "/ip4/127.0.0.1/tcp/4002").1.1 = some Sample.l2 := rfl
  rw [h2] at h
  exact Option.noConfusion h.2

/-- C2, amended: for every protocol already registered in the Listener Registry, a second
`ForwardLocal` with the same protocol and a bindable address does not fail: it returns a
non-nil listener and a nil error and starts that listener's accept loop; the first
registration is unaffected: the Listener Registry is unchanged, the protocol still resolves
to the first listener, and every socket listener that was open stays open. -/
theorem ForwardLocal_duplicate_keeps_first (w : World)
    (listen : Multiaddr → Except Error MaListener) (ctx : Context) (peer : PeerID)
    (proto : String) (bindAddr : Multiaddr) (m : MaListener) (first : localListener)
    (hreg : w.p2p.Listeners.get proto = some first)
    (hl : listen bindAddr = .ok m) :
    (P2P.ForwardLocal w listen ctx peer proto bindAddr).1 =
      (some { ctx := ctx, p2p := w.ref, id := w.p2p.identity, proto := proto, peer := peer,
              listener := m }, none) ∧
    (P2P.ForwardLocal w listen ctx peer proto bindAddr).2.p2p.Listeners = w.p2p.Listeners ∧
    (P2P.ForwardLocal w listen ctx peer proto bindAddr).2.p2p.Listeners.get proto =
      some first ∧
    (∀ m' ∈ w.listening, m' ∈ (P2P.ForwardLocal w listen ctx peer proto bindAddr).2.listening) ∧
    Event.goAcceptConns
        { ctx := ctx, p2p := w.ref, id := w.p2p.identity, proto := proto, peer := peer,
          listener := m } ∈
      (P2P.ForwardLocal w listen ctx peer proto bindAddr).2.trace := by
  have hk : proto ∈ w.p2p.Listeners.keys := key_of_get _ _ _ hreg
  have hR : (w.p2p.Listeners.Register
      { ctx := ctx, p2p := w.ref, id := w.p2p.identity, proto := proto, peer := peer,
        listener := m }).1 = w.p2p.Listeners := by
    rw [Register_of_mem w.p2p.Listeners
      { ctx := ctx, p2p := w.ref, id := w.p2p.identity, proto := proto, peer := peer,
        listener := m } hk]
  rw [ForwardLocal_of_listen_ok w listen ctx peer proto bindAddr m hl]
  refine ⟨rfl, hR, ?_, ?_, ?_⟩
  · show Registry.get (w.p2p.Listeners.Register _).1 proto = some first
    rw [hR]; exact hreg
  · intro m' hm'
    exact List.mem_append.mpr (Or.inl hm')
  · simp

/-- Witness for the amended C2: the second `ForwardLocal` for "/x/echo". -/
theorem ForwardLocal_duplicate_keeps_first_witness :
    (P2P.ForwardLocal Sample.w1 Sample.listen Sample.ctx Sample.target Sample.echo
        "/ip4/127.0.0.1/tcp/4002").2.p2p.Listeners = Sample.w1.p2p.Listeners :=
  (ForwardLocal_duplicate_keeps_first Sample.w1 Sample.listen Sample.ctx Sample.target
    Sample.echo "/ip4/127.0.0.1/tcp/4002" ⟨4, "/ip4/127.0.0.1/tcp/4002"⟩ Sample.l1 rfl rfl).2.1

/-! ## How long a registration lasts -/

/-- C4, as stated, fails: after a successful `ForwardLocal` for "/x/echo" (listener `l1`),
a second successful `ForwardLocal` for "/x/echo" (listener `l2`) followed by `Close` on
`l2` leaves no entry in the Listener Registry, although `Close` was never called on
`l1`. -/
theorem registration_lost_without_own_close :
    (P2P.ForwardLocal Sample.w0 Sample.listen Sample.ctx Sample.target Sample.echo
        "/ip4/127.0.0.1/tcp/4001") = ((some Sample.l1, none), Sample.w1) ∧
    Sample.l2 ≠ Sample.l1 ∧
    (run Sample.w1
        [Op.ForwardLocal Sample.listen Sample.ctx Sample.target Sample.echo
           "/ip4/127.0.0.1/tcp/4002",
         Op.Close Sample.l2]).p2p.Listeners.list = [] := by
  refine ⟨rfl, by decide, rfl⟩

/-- C4, amended: for every successful `ForwardLocal(ctx, peer, proto, bindAddr)` on a
manager in any state reached from a fresh one, the returned listener reports
`Protocol() = proto` and `TargetAddress() = "/ipfs/" ++ Pretty(peer)`, and after any later
sequence of calls that contains no `Close` of a listener for protocol `proto` (the empty
sequence included) the Listener Registry contains an entry whose `Protocol()` is
`proto`. -/
theorem ForwardLocal_registered_until_close_of_proto (ref : P2PRef) (identity : PeerID)
    (before : List Op) (listen : Multiaddr → Except Error MaListener) (ctx : Context)
    (peer : PeerID) (proto : String) (bindAddr : Multiaddr) (m : MaListener)
    (Pretty : PeerID → String) (later : List Op)
    (hl : listen bindAddr = .ok m)
    (hlater : ∀ op ∈ later, op.closesProto proto = false) :
    ∃ l : localListener,
      (P2P.ForwardLocal (run (World.init ref identity) before) listen ctx peer proto
          bindAddr).1 = (some l, none) ∧
      l.Protocol = proto ∧
      l.TargetAddress Pretty = "/ipfs/" ++ Pretty peer ∧
      ∃ l' ∈ (run (P2P.ForwardLocal (run (World.init ref identity) before) listen ctx peer
                proto bindAddr).2 later).p2p.Listeners.list,
        l'.Protocol = proto := by
  have hw0 : (run (World.init ref identity) before).p2p.Listeners.Keyed :=
    run_keyed before _ (init_keyed ref identity)
  have hF := ForwardLocal_of_listen_ok (run (World.init ref identity) before) listen ctx peer
    proto bindAddr m hl
  refine ⟨_, congrArg Prod.fst hF, rfl, rfl, ?_⟩
  apply keyed_entry_of_key
  · apply run_keyed
    rw [hF]
    exact Register_keyed _ _ hw0
  · apply run_keys proto later _ hlater
    rw [hF]
    exact Register_self_key _
      { ctx := ctx, p2p := (run (World.init ref identity) before).ref,
        id := (run (World.init ref identity) before).p2p.identity, proto := proto,
        peer := peer, listener := m }

/-- Witness for the amended C4: the first `ForwardLocal`, followed by an accept-loop
iteration and a `Close` of a listener for another protocol. -/
theorem ForwardLocal_registered_until_close_of_proto_witness :
    ∃ l : localListener,
      (P2P.ForwardLocal (run (World.init 1 Sample.self) []) Sample.listen Sample.ctx
          Sample.target Sample.echo "/ip4/127.0.0.1/tcp/4001").1 = (some l, none) ∧
      l.Protocol = Sample.echo ∧
      l.TargetAddress id = "/ipfs/" ++ id Sample.target ∧
      ∃ l' ∈ (run (P2P.ForwardLocal (run (World.init 1 Sample.self) []) Sample.listen
                Sample.ctx Sample.target Sample.echo "/ip4/127.0.0.1/tcp/4001").2
                [Op.acceptIter Sample.l1 (.ok Sample.c1) Sample.hostUp,
                 Op.Close { Sample.l2 with proto := "/x/other" }]).p2p.Listeners.list,
        l'.Protocol = Sample.echo :=
  ForwardLocal_registered_until_close_of_proto 1 Sample.self [] Sample.listen Sample.ctx
    Sample.target Sample.echo "/ip4/127.0.0.1/tcp/4001" ⟨3, "/ip4/127.0.0.1/tcp/4001"⟩ id
    [Op.acceptIter Sample.l1 (.ok Sample.c1) Sample.hostUp,
     Op.Close { Sample.l2 with proto := "/x/other" }]
    rfl (by decide)

/-! ## Dial success -/

/-- C6: for a listener created by `ForwardLocal` on a manager (in any state reached from a
fresh one) and any later state of that manager, handling an accepted connection whose dial
succeeds registers exactly one new Stream in the manager's Stream Registry; that Stream has
the listener's protocol, the manager's identity as local peer, the bound socket's address
as local address, the remote peer and address of the opened overlay stream's connection,
the accepted connection and the overlay stream as its halves, and the manager's Stream
Registry as registry; `startStreaming` is called right after the registration, and the
loop goes on. -/
theorem acceptIter_registers_one_stream (ref : P2PRef) (identity : PeerID)
    (before : List Op) (listen : Multiaddr → Except Error MaListener) (ctx : Context)
    (peer : PeerID) (proto : String) (bindAddr : Multiaddr) (l : localListener)
    (later : List Op) (w : World) (c : Conn) (h : Host) (remote : NetStream)
    (hl : (P2P.ForwardLocal (run (World.init ref identity) before) listen ctx peer proto
            bindAddr).1.1 = some l)
    (hw : w = run (P2P.ForwardLocal (run (World.init ref identity) before) listen ctx peer
            proto bindAddr).2 later)
    (hd : (l.dial h).1 = .ok remote) :
    ∃ stream : Stream,
      stream =
        { Protocol := proto, LocalPeer := w.p2p.identity, LocalAddr := l.listener.Multiaddr,
          RemotePeer := remote.Conn.RemotePeer, RemoteAddr := remote.Conn.RemoteMultiaddr,
          Local := c, Remote := remote, Registry := RegistryRef.Streams w.ref } ∧
      listen bindAddr = .ok l.listener ∧
      l.Protocol = proto ∧
      (l.acceptIter w (.ok c) h).1 = true ∧
      (l.acceptIter w (.ok c) h).2.p2p.Streams.list = w.p2p.Streams.list ++ [stream] ∧
      (l.acceptIter w (.ok c) h).2.p2p.Listeners = w.p2p.Listeners ∧
      (l.acceptIter w (.ok c) h).2.closedConns = w.closedConns ∧
      (l.acceptIter w (.ok c) h).2.trace =
        w.trace ++ [Event.Accept l.listener] ++ (l.dial h).2 ++
          [Event.StreamsRegister stream, Event.startStreaming stream] := by
  cases hb : listen bindAddr with
  | error e =>
    rw [ForwardLocal_of_listen_error _ listen ctx peer proto bindAddr e hb] at hl
    cases hl
  | ok m =>
    have hF := ForwardLocal_of_listen_ok (run (World.init ref identity) before) listen ctx
      peer proto bindAddr m hb
    rw [hF] at hl hw
    have hl' := Option.some.inj hl
    have hfr := run_frame later
      ((P2P.ForwardLocal (run (World.init ref identity) before) listen ctx peer proto
        bindAddr).2)
    rw [hF] at hfr
    rw [← hw] at hfr
    have hid : l.id = w.p2p.identity := by rw [← hl', hfr.2]
    have hp : l.p2p = w.ref := by rw [← hl', hfr.1]
    have hproto : l.proto = proto := by rw [← hl']
    have hlist : l.listener = m := by rw [← hl']
    refine ⟨_, rfl, ?_, hproto, ?_⟩
    · rw [hlist]
    · rw [acceptIter_dial_ok l w c h remote hd, hid, hp, hproto]
      refine ⟨rfl, ?_, rfl, rfl, rfl⟩
      exact StreamRegistry_Register_list _ _

/-- Witness for C6: the first listener accepts a connection while the peer is reachable. -/
theorem acceptIter_registers_one_stream_witness :
    (Sample.l1.acceptIter Sample.w1 (.ok Sample.c1) Sample.hostUp).2.p2p.Streams.list =
      [{ Protocol := Sample.echo, LocalPeer := Sample.self,
         LocalAddr := "/ip4/127.0.0.1/tcp/4001", RemotePeer := Sample.target,
         RemoteAddr := "/ip4/10.0.0.2/tcp/4001", Local := Sample.c1,
         Remote := Sample.remote, Registry := RegistryRef.Streams 1 }] := by
  obtain ⟨s, hs, _, _, _, hlist, _⟩ :=
    acceptIter_registers_one_stream 1 Sample.self [] Sample.listen Sample.ctx Sample.target
      Sample.echo "/ip4/127.0.0.1/tcp/4001" Sample.l1 [] Sample.w1 Sample.c1 Sample.hostUp
      Sample.remote rfl rfl rfl
  rw [hlist, hs]
  rfl

/-! ## A terminated accept loop -/

/-- C8, as stated, fails: after `ForwardLocal` for "/x/echo", an `Accept` error makes
`acceptConns` return, no `Close` has been called, and the listener is still in the
Listener Registry. -/
theorem terminated_loop_still_registered :
    (Sample.l1.acceptConns Sample.w1
        [(.error (Error.ext "accept: too many open files"), Sample.hostUp)]).1 = true ∧
    (Sample.l1.acceptConns Sample.w1
        [(.error (Error.ext "accept: too many open files"), Sample.hostUp)]).2.p2p.Listeners.get
      Sample.echo = some Sample.l1 ∧
    Event.ListenerClose Sample.l1.listener ∉
      (Sample.l1.acceptConns Sample.w1
        [(.error (Error.ext "accept: too many open files"), Sample.hostUp)]).2.trace := by
  refine ⟨rfl, rfl, by decide⟩

/-- C8, amended: for a listener registered under its protocol, in every state, once
`Accept` returns an error `acceptConns` returns with nothing but that `Accept` call made:
whatever connections and host answers would have followed are never used, so no accept,
dial or Stream registration happens after it and the manager is unchanged; the accept loop
never changes the Listener Registry, whatever it runs through; the terminated listener
stays registered through every later sequence of calls that contains no `Close` of a
listener for its protocol; and a `Close` of the listener after that leaves its protocol
unregistered. -/
theorem acceptConns_accept_error_returns (l : localListener) (w : World) (e : Error)
    (h : Host) (rest script : List (Except Error Conn × Host)) (later : List Op)
    (hreg : w.p2p.Listeners.get l.Protocol = some l)
    (hlater : ∀ op ∈ later, op.closesProto l.Protocol = false) :
    l.acceptConns w ((.error e, h) :: rest) = (true, w.emit [Event.Accept l.listener]) ∧
    (l.acceptConns w ((.error e, h) :: rest)).2.p2p = w.p2p ∧
    (l.acceptConns w script).2.p2p.Listeners = w.p2p.Listeners ∧
    (l.acceptConns w ((.error e, h) :: rest)).2.p2p.Listeners.get l.Protocol = some l ∧
    (run (l.acceptConns w ((.error e, h) :: rest)).2 later).p2p.Listeners.get l.Protocol =
      some l ∧
    l ∈ (run (l.acceptConns w ((.error e, h) :: rest)).2 later).p2p.Listeners.list ∧
    (l.Close (run (l.acceptConns w ((.error e, h) :: rest)).2 later)).2.p2p.Listeners.get
      l.Protocol = none := by
  have h1 := acceptConns_cons_stop l w _ (.error e) h rest (acceptIter_accept_error l w e h)
  have h2 : (l.acceptConns w ((.error e, h) :: rest)).2.p2p.Listeners.get l.Protocol =
      some l := by
    rw [h1]; exact hreg
  have h3 := run_get l.Protocol l later _ hlater h2
  refine ⟨h1, ?_, (acceptConns_frame l script w).2.2.1, h2, h3, ?_, ?_⟩
  · rw [h1]; rfl
  · unfold Registry.get at h3
    obtain ⟨x, hx, hxl⟩ := Option.map_eq_some'.mp h3
    exact List.mem_map.mpr ⟨x, List.mem_of_find?_eq_some hx, hxl⟩
  · exact deregister_get_none _ _

/-- Witness for the amended C8: the first listener's loop ends on an accept error; a
second `ForwardLocal` for the same protocol and an iteration of that listener's loop
follow, and the first listener is still registered. -/
theorem acceptConns_accept_error_returns_witness :
    (run (Sample.l1.acceptConns Sample.w1
        [(.error (Error.ext "accept: too many open files"), Sample.hostUp),
         (.ok Sample.c1, Sample.hostUp)]).2
      [Op.ForwardLocal Sample.listen Sample.ctx Sample.target Sample.echo
         "/ip4/127.0.0.1/tcp/4002",
       Op.acceptIter Sample.l2 (.ok Sample.c2) Sample.hostUp]).p2p.Listeners.get
        Sample.l1.Protocol = some Sample.l1 ∧
    (Sample.l1.acceptConns Sample.w1
        [(.error (Error.ext "accept: too many open files"), Sample.hostUp),
         (.ok Sample.c1, Sample.hostUp)]).2.p2p.Streams.list = [] :=
  ⟨(acceptConns_accept_error_returns Sample.l1 Sample.w1
      (Error.ext "accept: too many open files") Sample.hostUp
      [(.ok Sample.c1, Sample.hostUp)] []
      [Op.ForwardLocal Sample.listen Sample.ctx Sample.target Sample.echo
         "/ip4/127.0.0.1/tcp/4002",
       Op.acceptIter Sample.l2 (.ok Sample.c2) Sample.hostUp]
      rfl (by decide)).2.2.2.2.1,
   by
    rw [(acceptConns_accept_error_returns Sample.l1 Sample.w1
      (Error.ext "accept: too many open files") Sample.hostUp
      [(.ok Sample.c1, Sample.hostUp)] [] [] rfl (by decide)).1]
    rfl⟩

end P2PForward

/-! ## Mount points -/

namespace Mount

/-- C9: evaluation of `Run` with option "f" = "/a" and option "n" = "/b", and with only
option "n" = "/b": the IPNS mount point is "/a" in the first case and the configured
default in the second, never the value of option "n"; the IPFS mount point is the value
of "f", or the default without it. -/
theorem Run_ipns_mount_point_ignores_option_n :
    Run true none { IPFS := "/ipfs", IPNS := "/ipns" }
        { options := [("f", OptVal.str "/a"), ("n", OptVal.str "/b")] } =
      .ok { fsdir := "/a", nsdir := "/a" } ∧
    Run true none { IPFS := "/ipfs", IPNS := "/ipns" }
        { options := [("n", OptVal.str "/b")] } =
      .ok { fsdir := "/ipfs", nsdir := "/ipns" } := by
  constructor <;> rfl

end Mount
